import Mathlib

/-!
# Image Transform Resolution & Static Asset Registry — verification

A shallow embedding of the image-asset core of the repository.  The only
source file present, `src/packages/astro/src/assets/types.ts`, is a
declaration file: it fixes the data model (`ImageMetadata`,
`ImageTransform`, `ImageQuality`, the `astroAsset` global handle and the
public component prop types).  Those types are embedded here directly from
the source.  The executable components the specification describes — the
transform normalizer, the capability negotiator and the asset registry —
live outside `src/`; they are modelled from the specification text, and
each such definition says so in its doc comment.
-/

namespace AstroAssets

/-- Embedded from `types.ts` (`InputFormat`): a closed union of format
names plus `'svg'`; the underlying closed set lives in `consts.js`, which
is not under `src/`, so the type is modelled as a plain format-name
string. -/
abbrev InputFormat := String

/-- Embedded from `types.ts` (`OutputFormat`): the union with
`(string & {})` makes this an arbitrary format-name string. -/
abbrev OutputFormat := String

/-- Embedded from `types.ts`: `ImageQuality = ImageQualityPreset | number`,
where `ImageQualityPreset` is `'low' | 'mid' | 'high' | 'max' | (string & {})`,
i.e. an arbitrary preset string; the numeric alternative is an integer. -/
inductive ImageQuality where
  | preset (name : String)
  | value (q : Int)
deriving DecidableEq, Repr

/-- Embedded from `types.ts` (`ImageMetadata`): the shape returned by ESM
imports of images — a resolved source reference `src` together with the
intrinsic width, height and format. -/
structure ImageMetadata where
  src : String
  width : Nat
  height : Nat
  format : InputFormat
deriving DecidableEq, Repr

/-- Embedded from `types.ts` (`ImageTransform.src : ImageMetadata | string`):
a transform's source is either a local image (with intrinsic metadata) or a
remote URL string. -/
inductive ImageSource where
  | localSrc (metadata : ImageMetadata)
  | remote (url : String)
deriving DecidableEq, Repr

/-- Embedded from `types.ts` (`ImageTransform`): the options accepted by the
image transformation service.  The index signature `[key: string]: any` is
the open `extra` bag, modelled as a key/value association list with opaque
passthrough values represented as strings. -/
structure ImageTransform where
  src : ImageSource
  width : Option Nat
  height : Option Nat
  quality : Option ImageQuality
  format : Option OutputFormat
  extra : List (String × String)
deriving DecidableEq, Repr

/-! ## Decimal digit strings

The public prop types admit a dimension given as the string form of a
number (the TypeScript template-literal type `` `${number}` ``).  We model
such strings concretely, with a renderer and a parser related by a
round-trip theorem; the renderer also supplies injective output-path
strings for the registry model. -/

/-- The decimal digit list of `n`, most significant digit first. -/
def natToDigits (n : Nat) : List Char :=
  if h : n < 10 then [Char.ofNat (48 + n)]
  else natToDigits (n / 10) ++ [Char.ofNat (48 + n % 10)]
decreasing_by exact Nat.div_lt_self (by omega) (by omega)

/-- The decimal string form of `n` — the inhabitant of `` `${number}` ``
denoting `n`. -/
def natRepr (n : Nat) : String := String.mk (natToDigits n)

/-- Accumulate a list of decimal digit characters into the number it
denotes. -/
def digitsToNat (cs : List Char) : Nat :=
  cs.foldl (fun a c => a * 10 + (c.toNat - 48)) 0

/-- Numeric value denoted by a decimal digit string. -/
def parseDigits (s : String) : Nat := digitsToNat s.data

theorem toNat_ofNat_digit (d : Nat) (h : d < 10) :
    (Char.ofNat (48 + d)).toNat = 48 + d := by
  interval_cases d <;> decide

theorem foldl_natToDigits (n : Nat) : ∀ a : Nat,
    (natToDigits n).foldl (fun a c => a * 10 + (c.toNat - 48)) a
      = a * 10 ^ (natToDigits n).length + n := by
  induction n using Nat.strong_induction_on with
  | _ n ih =>
    intro a
    rw [natToDigits]
    by_cases h : n < 10
    · simp only [h, dif_pos, List.foldl_cons, List.foldl_nil, List.length_cons,
        List.length_nil, zero_add, pow_one, toNat_ofNat_digit n h]
      omega
    · have hdiv : n / 10 < n := Nat.div_lt_self (by omega) (by omega)
      simp only [h, dif_neg, not_false_iff, List.foldl_append, List.foldl_cons,
        List.foldl_nil, List.length_append, List.length_cons, List.length_nil]
      rw [ih (n / 10) hdiv a, toNat_ofNat_digit (n % 10) (Nat.mod_lt n (by omega))]
      have hmod : 48 + n % 10 - 48 = n % 10 := by omega
      rw [hmod, pow_succ]
      have := Nat.div_add_mod n 10
      ring_nf
      omega

/-- Round trip: parsing the decimal string form of `n` recovers `n`. -/
theorem parseDigits_natRepr (n : Nat) : parseDigits (natRepr n) = n := by
  have h := foldl_natToDigits n 0
  simpa [parseDigits, natRepr, digitsToNat] using h

/-- The decimal string form is injective. -/
theorem natRepr_injective : Function.Injective natRepr := by
  intro a b h
  have := congrArg parseDigits h
  simpa [parseDigits_natRepr] using this

/-! ## Public component props (`ImageSharedProps`, `LocalImageProps`,
`RemoteImageProps`) -/

/-- Embedded from `types.ts` (`ImageSharedProps.width/height`):
a dimension prop is either a number or a numeric string
(`` number | `${number}` ``). -/
inductive PropDim where
  | num (n : Nat)
  | str (s : String)
deriving DecidableEq, Repr

/-- Embedded from `types.ts` (`ImageSharedProps`): the shared public props,
optional `width` and `height` each accepting a number or its string
form. -/
structure ImageSharedProps where
  width : Option PropDim
  height : Option PropDim
deriving DecidableEq, Repr

/-- Embedded from `types.ts` (`LocalImageProps`): shared props plus a local
`src` (ESM-imported metadata) and optional `format` and `quality`. -/
structure LocalImageProps where
  shared : ImageSharedProps
  src : ImageMetadata
  format : Option OutputFormat
  quality : Option ImageQuality
deriving DecidableEq, Repr

/-- Embedded from `types.ts` (`RemoteImageProps =
WithRequired<ImageSharedProps, 'width' | 'height'> & { src: string }`):
a remote URL source with both dimension props required. -/
structure RemoteImageProps where
  width : PropDim
  height : PropDim
  src : String
deriving DecidableEq, Repr

/-- Modelled from the spec: the coercion applied at the component boundary
to dimension props — a numeric string (the `` `${number}` `` form) denotes
the number it spells; the coercion logic itself lives outside `src/`. -/
def coerceDim : PropDim → Nat
  | .num n => n
  | .str s => parseDigits s

/-- Modelled from the spec: lower public component props onto the
transform-request shape consumed by the normalizer, coercing string-form
dimensions to numbers. -/
def propsToTransform (src : ImageSource) (p : ImageSharedProps)
    (quality : Option ImageQuality) (format : Option OutputFormat)
    (extra : List (String × String)) : ImageTransform :=
  { src := src
    width := p.width.map coerceDim
    height := p.height.map coerceDim
    quality := quality
    format := format
    extra := extra }

/-! ## Transform Normalizer (modelled from the spec, §4.1) -/

/-- Modelled from the spec: the normalization failure taxonomy
(`MissingDimension`, `InvalidDimension`, `UnsupportedInputFormat`). -/
inductive NormalizationError where
  | missingDimension
  | invalidDimension
  | unsupportedInputFormat
deriving DecidableEq, Repr

/-- Modelled from the spec: external configuration consumed by the
normalizer — the configured default output format (§4.1 rule 4) and the
recognized closed input-format set (`consts.js` is not under `src/`). -/
structure NormConfig where
  defaultFormat : OutputFormat
  validInputFormats : List InputFormat
deriving DecidableEq, Repr

/-- Modelled from the spec (`ResolvedTransform`): the output of
normalization — both dimensions concrete, format resolved, quality passed
through as given, source reference and stripped `extra` bag retained. -/
structure ResolvedTransform where
  width : Nat
  height : Nat
  format : OutputFormat
  quality : Option ImageQuality
  sourceRef : ImageSource
  extra : List (String × String)
deriving DecidableEq, Repr

/-- Modelled from the spec (§4.1 rule 6): keys already recognized as
`width|height|quality|format|src` are stripped from `extra` before
copying. -/
def stripExtra (extra : List (String × String)) : List (String × String) :=
  extra.filter (fun p => !(["width", "height", "quality", "format", "src"].contains p.1))

/-- Modelled from the spec (§4.1 rule 2): `round(a / b)` on the exact
rational, i.e. JavaScript `Math.round` on the nonnegative values arising
in aspect-ratio math. -/
def roundRatio (a b : Nat) : Nat := (round ((a : ℚ) / (b : ℚ))).toNat

/-- Modelled from the spec (§4.1, `normalize`): vector sources pass
dimensions through (defaulting to intrinsic ones); a local raster source
infers a missing dimension from the intrinsic aspect ratio by rounding; a
remote source requires both dimensions, else `MissingDimension`;
non-positive supplied dimensions are `InvalidDimension`; an unrecognized
non-vector input format is `UnsupportedInputFormat`; `format` defaults to
the configured output format; `quality` passes through unset or as given;
`extra` is copied with reserved keys stripped. -/
def normalize (cfg : NormConfig) (r : ImageTransform) :
    Except NormalizationError ResolvedTransform :=
  let fmt := r.format.getD cfg.defaultFormat
  let ex := stripExtra r.extra
  match r.src with
  | .remote _ =>
    match r.width, r.height with
    | some w, some h =>
      if w = 0 ∨ h = 0 then .error .invalidDimension
      else .ok ⟨w, h, fmt, r.quality, r.src, ex⟩
    | _, _ => .error .missingDimension
  | .localSrc m =>
    if m.format = "svg" then
      .ok ⟨r.width.getD m.width, r.height.getD m.height, fmt, r.quality, r.src, ex⟩
    else if !(cfg.validInputFormats.contains m.format) then
      .error .unsupportedInputFormat
    else
      match r.width, r.height with
      | some w, some h =>
        if w = 0 ∨ h = 0 then .error .invalidDimension
        else .ok ⟨w, h, fmt, r.quality, r.src, ex⟩
      | some w, none =>
        if w = 0 ∨ m.width = 0 then .error .invalidDimension
        else .ok ⟨w, roundRatio (w * m.height) m.width, fmt, r.quality, r.src, ex⟩
      | none, some h =>
        if h = 0 ∨ m.height = 0 then .error .invalidDimension
        else .ok ⟨roundRatio (h * m.width) m.height, h, fmt, r.quality, r.src, ex⟩
      | none, none => .ok ⟨m.width, m.height, fmt, r.quality, r.src, ex⟩

/-! ## Capability Negotiator (modelled from the spec, §4.2) -/

/-- Modelled from the spec (§6, `BackendCapabilities`): the query surface
of the pluggable image-service backend — supported input and output format
sets, a per-format flag reporting quality unsupported, and a quality
validity predicate. -/
structure BackendCapabilities where
  supportedInputFormats : List InputFormat
  supportedOutputFormats : List OutputFormat
  qualityUnsupported : OutputFormat → Bool
  qualityValid : OutputFormat → ImageQuality → Bool

/-- Modelled from the spec: the negotiation failure taxonomy
(`UnsupportedOutputFormat`). -/
inductive NegotiationError where
  | unsupportedOutputFormat
deriving DecidableEq, Repr

/-- Modelled from the spec (§4.2, `negotiate`): fail with
`UnsupportedOutputFormat` when the resolved format is not in the backend's
supported set (never substituting a fallback); drop the quality value when
the backend reports quality unsupported for the resolved format; otherwise
pass the resolved transform through unchanged. -/
def negotiate (r : ResolvedTransform) (b : BackendCapabilities) :
    Except NegotiationError ResolvedTransform :=
  if b.supportedOutputFormats.contains r.format then
    if b.qualityUnsupported r.format then .ok { r with quality := none }
    else .ok r
  else .error .unsupportedOutputFormat

/-! ## Asset Registry (modelled from the spec, §4.3 and §5) -/

/-- Modelled from the spec: the canonical transform fingerprint — a
deterministic identity over the canonicalized source reference and every
resolved option, with the `extra` bag canonicalized order-independently
(modelled as a multiset of key/value pairs). -/
structure Fingerprint where
  sourceRef : ImageSource
  width : Nat
  height : Nat
  format : OutputFormat
  quality : Option ImageQuality
  extra : Multiset (String × String)
deriving DecidableEq

/-- Modelled from the spec: compute the fingerprint of a resolved
transform. -/
def fingerprint (r : ResolvedTransform) : Fingerprint :=
  ⟨r.sourceRef, r.width, r.height, r.format, r.quality, (r.extra : Multiset (String × String))⟩

/-- Modelled from the spec (`RegistryEntry`): fingerprint, assigned output
path, and the resolved options, created on first registration and immutable
thereafter. -/
structure RegistryEntry where
  fingerprint : Fingerprint
  outputPath : String
  resolved : ResolvedTransform
deriving DecidableEq

/-- Modelled from the spec: the build-scoped registry state — the list of
committed entries plus a counter driving fresh path assignment (the path
derivation strategy is an external concern; only per-fingerprint uniqueness
and stability matter). -/
structure Registry where
  entries : List RegistryEntry
  counter : Nat
deriving DecidableEq

/-- Modelled from the spec: fresh, collision-free output path for the
`n`-th created entry of a build. -/
def assignPath (n : Nat) : String := natRepr n

/-- The empty registry at build start. -/
def Registry.empty : Registry := ⟨[], 0⟩

/-- Modelled from the spec (`reset`): clears all entries at the build
lifecycle boundary. -/
def Registry.reset (_ : Registry) : Registry := Registry.empty

/-- Modelled from the spec (`lookup`): read-only query for the entry with
the given fingerprint, if any. -/
def Registry.lookup (reg : Registry) (fp : Fingerprint) : Option RegistryEntry :=
  reg.entries.find? (fun e => decide (e.fingerprint = fp))

/-- Modelled from the spec (`register`): compute the fingerprint; if an
entry already exists return its `outputPath` unchanged (no new entry, no
backend work); otherwise assign a fresh path, commit the entry, and return
the new path.  The result is `(outputPath, new state, created?)`, where the
flag records whether a new entry was created — equivalently, whether
backend transform work was issued for this fingerprint. -/
def Registry.register (reg : Registry) (r : ResolvedTransform) :
    String × Registry × Bool :=
  let fp := fingerprint r
  match reg.lookup fp with
  | some e => (e.outputPath, reg, false)
  | none =>
    let path := assignPath reg.counter
    (path, ⟨⟨fp, path, r⟩ :: reg.entries, reg.counter + 1⟩, true)

/-- Modelled from the spec (§5): concurrent `register` calls serialize
around the check-and-insert, so any concurrent execution of a batch of
callers is equivalent to running them in some sequential order; this folds
one such order, collecting each caller's observed `(outputPath, created?)`
outcome. -/
def registerAll (reg : Registry) : List ResolvedTransform → List (String × Bool) × Registry
  | [] => ([], reg)
  | r :: rest =>
    let out := reg.register r
    let next := registerAll out.2.1 rest
    ((out.1, out.2.2) :: next.1, next.2)

/-- Registry states reachable within one build: the empty registry, closed
under `register` steps. -/
inductive Reachable : Registry → Prop where
  | init : Reachable Registry.empty
  | step (reg : Registry) (r : ResolvedTransform) :
      Reachable reg → Reachable (reg.register r).2.1

/-- Well-formedness invariant of a registry state: fingerprints are
pairwise distinct, every committed path was assigned from an index below
the counter, and paths are pairwise distinct. -/
def Registry.WF (reg : Registry) : Prop :=
  (reg.entries.map RegistryEntry.fingerprint).Nodup ∧
  (∀ e ∈ reg.entries, ∃ i, i < reg.counter ∧ e.outputPath = assignPath i) ∧
  (reg.entries.map RegistryEntry.outputPath).Nodup

/-! ### Registry lemmas -/

theorem register_of_found (reg : Registry) (r : ResolvedTransform) (e : RegistryEntry)
    (h : reg.lookup (fingerprint r) = some e) :
    reg.register r = (e.outputPath, reg, false) := by
  simp [Registry.register, h]

theorem register_of_none (reg : Registry) (r : ResolvedTransform)
    (h : reg.lookup (fingerprint r) = none) :
    reg.register r =
      (assignPath reg.counter,
       ⟨⟨fingerprint r, assignPath reg.counter, r⟩ :: reg.entries, reg.counter + 1⟩,
       true) := by
  simp [Registry.register, h]

theorem lookup_cons_self (reg : Registry) (fp : Fingerprint) (path : String)
    (r : ResolvedTransform) :
    Registry.lookup ⟨⟨fp, path, r⟩ :: reg.entries, reg.counter + 1⟩ fp
      = some ⟨fp, path, r⟩ := by
  simp [Registry.lookup, List.find?_cons_of_pos]

/-- After any `register`, the fingerprint just registered is committed, and
the committed path is the one the call returned. -/
theorem register_lookup_self (reg : Registry) (r : ResolvedTransform) :
    ∃ e, ((reg.register r).2.1).lookup (fingerprint r) = some e ∧
      e.outputPath = (reg.register r).1 ∧ e.fingerprint = fingerprint r := by
  cases hlk : reg.lookup (fingerprint r) with
  | none =>
    rw [register_of_none reg r hlk]
    exact ⟨⟨fingerprint r, assignPath reg.counter, r⟩, lookup_cons_self reg _ _ r, rfl, rfl⟩
  | some e =>
    rw [register_of_found reg r e hlk]
    have hp := List.find?_some hlk
    have hfp : e.fingerprint = fingerprint r := by simpa using hp
    exact ⟨e, hlk, rfl, hfp⟩

/-- A committed entry is never overwritten or removed by a later
`register`. -/
theorem lookup_register_persist (reg : Registry) (r : ResolvedTransform)
    (fp : Fingerprint) (e : RegistryEntry) (h : reg.lookup fp = some e) :
    ((reg.register r).2.1).lookup fp = some e := by
  cases hlk : reg.lookup (fingerprint r) with
  | none =>
    rw [register_of_none reg r hlk]
    have hne : fingerprint r ≠ fp := by
      intro hcontra
      rw [hcontra] at hlk
      rw [hlk] at h
      exact Option.noConfusion h
    simp only [Registry.lookup] at h ⊢
    rw [List.find?_cons_of_neg]
    · exact h
    · simpa using hne
  | some e2 =>
    rw [register_of_found reg r e2 hlk]
    exact h

theorem wf_empty : Registry.empty.WF := by
  simp [Registry.WF, Registry.empty]

theorem wf_register (reg : Registry) (r : ResolvedTransform) (h : reg.WF) :
    ((reg.register r).2.1).WF := by
  obtain ⟨hfps, hpaths, hnodup⟩ := h
  cases hlk : reg.lookup (fingerprint r) with
  | some e => rw [register_of_found reg r e hlk]; exact ⟨hfps, hpaths, hnodup⟩
  | none =>
    rw [register_of_none reg r hlk]
    dsimp only [Registry.WF]
    have hnotin : ∀ x ∈ reg.entries, x.fingerprint ≠ fingerprint r := by
      intro x hx
      have := List.find?_eq_none.mp hlk x hx
      simpa using this
    refine ⟨?_, ?_, ?_⟩
    · simp only [List.map_cons, List.nodup_cons]
      constructor
      · intro hmem
        obtain ⟨x, hx, hxeq⟩ := List.mem_map.mp hmem
        exact hnotin x hx hxeq
      · exact hfps
    · intro e he
      rcases List.mem_cons.mp he with heq | hmem
      · exact ⟨reg.counter, by omega, by rw [heq]⟩
      · obtain ⟨i, hi, hpath⟩ := hpaths e hmem
        exact ⟨i, by omega, hpath⟩
    · simp only [List.map_cons, List.nodup_cons]
      constructor
      · intro hmem
        obtain ⟨x, hx, hxeq⟩ := List.mem_map.mp hmem
        obtain ⟨i, hi, hpath⟩ := hpaths x hx
        rw [hpath] at hxeq
        have : i = reg.counter := natRepr_injective hxeq
        omega
      · exact hnodup

theorem reachable_wf (reg : Registry) (h : Reachable reg) : reg.WF := by
  induction h with
  | init => exact wf_empty
  | step reg r _ ih => exact wf_register reg r ih

/-- In a well-formed registry, entries with distinct fingerprints carry
distinct output paths. -/
theorem wf_path_ne (reg : Registry) (h : reg.WF) (e1 e2 : RegistryEntry)
    (h1 : e1 ∈ reg.entries) (h2 : e2 ∈ reg.entries)
    (hne : e1.fingerprint ≠ e2.fingerprint) : e1.outputPath ≠ e2.outputPath := by
  intro heq
  exact hne (congrArg RegistryEntry.fingerprint
    (List.inj_on_of_nodup_map h.2.2 h1 h2 heq))

/-- Once an entry for `fp` exists, every later caller in a batch observes
its path, no caller creates an entry, and the state never changes. -/
theorem registerAll_of_found (fp : Fingerprint) (e : RegistryEntry) :
    ∀ (rs : List ResolvedTransform) (reg : Registry),
      (∀ r ∈ rs, fingerprint r = fp) → reg.lookup fp = some e →
      registerAll reg rs = (rs.map (fun _ => (e.outputPath, false)), reg) := by
  intro rs
  induction rs with
  | nil => intro reg _ _; simp [registerAll]
  | cons r rest ih =>
    intro reg hall hlk
    have hfp : fingerprint r = fp := hall r (List.mem_cons_self r rest)
    have hreg : reg.register r = (e.outputPath, reg, false) := by
      rw [register_of_found reg r e (by rw [hfp]; exact hlk)]
    have hrest := ih reg (fun x hx => hall x (List.mem_cons_of_mem r hx)) hlk
    simp [registerAll, hreg, hrest]

/-! ## The process-wide `astroAsset` handle -/

/-- Embedded from `types.ts` (`ImageService`, imported from
`services/service.js` which is not under `src/`): modelled from the spec as
the backend capability surface. -/
structure ImageService where
  capabilities : BackendCapabilities

/-- Embedded from `types.ts` (`staticImages` value shape): an output path
together with the transform options that produced it. -/
structure StaticImageRecord where
  path : String
  options : ImageTransform

/-- Embedded from `types.ts` (`globalThis.astroAsset`): every field is
optional (`imageService?`, `addStaticImage?`, `staticImages?`), so each is
an `Option` and the handle admits a fully-uninitialized state. -/
structure AstroAsset where
  imageService : Option ImageService
  addStaticImage : Option (ImageTransform → String)
  staticImages : Option (List (String × StaticImageRecord))

/-! ## Claims -/

/-- C1: For every transform request whose source is remote (a URL string),
if either `width` or `height` is absent, normalization fails with
`MissingDimension`; a remote-source request is only valid when both
dimensions are supplied by the author. -/
theorem normalize_remote_missing_dimension (cfg : NormConfig) (r : ImageTransform)
    (url : String) (hsrc : r.src = .remote url)
    (hmiss : r.width = none ∨ r.height = none) :
    normalize cfg r = .error .missingDimension := by
  cases hw : r.width <;> cases hh : r.height <;> simp_all [normalize]

theorem normalize_remote_missing_dimension_witness :
    normalize ⟨"webp", ["png", "jpeg"]⟩
      ⟨.remote "https://example.com/image.png", some 800, none, none, none, []⟩
      = .error .missingDimension :=
  normalize_remote_missing_dimension _ _ "https://example.com/image.png" rfl (Or.inr rfl)

/-- C2: For every local raster source with intrinsic metadata `(iw, ih)`
where exactly one dimension is requested, the normalizer computes the other
dimension preserving the intrinsic aspect ratio: with only `width = w`
supplied, resolved height is `round(w * ih / iw)`; with only `height = h`
supplied, resolved width is `round(h * iw / ih)`. -/
theorem normalize_aspect_ratio (cfg : NormConfig) (r : ImageTransform)
    (m : ImageMetadata) (hsrc : r.src = .localSrc m) (hraster : m.format ≠ "svg")
    (hvalid : m.format ∈ cfg.validInputFormats)
    (hiw : 0 < m.width) (hih : 0 < m.height) :
    (∀ w, r.width = some w → r.height = none → 0 < w →
      ∃ t, normalize cfg r = .ok t ∧ t.width = w ∧
        t.height = (round ((w : ℚ) * (m.height : ℚ) / (m.width : ℚ))).toNat) ∧
    (∀ h, r.height = some h → r.width = none → 0 < h →
      ∃ t, normalize cfg r = .ok t ∧ t.height = h ∧
        t.width = (round ((h : ℚ) * (m.width : ℚ) / (m.height : ℚ))).toNat) := by
  have hc : cfg.validInputFormats.contains m.format = true :=
    List.elem_eq_true_of_mem hvalid
  constructor
  · intro w hw hh hpos
    have hnz : ¬(w = 0 ∨ m.width = 0) := by omega
    refine ⟨⟨w, roundRatio (w * m.height) m.width, r.format.getD cfg.defaultFormat,
      r.quality, r.src, stripExtra r.extra⟩, ?_, rfl, ?_⟩
    · simp [normalize, hsrc, hraster, hc, hw, hh, hnz, hvalid]
    · simp only [roundRatio]
      push_cast
      rfl
  · intro h hh hw hpos
    have hnz : ¬(h = 0 ∨ m.height = 0) := by omega
    refine ⟨⟨roundRatio (h * m.width) m.height, h, r.format.getD cfg.defaultFormat,
      r.quality, r.src, stripExtra r.extra⟩, ?_, rfl, ?_⟩
    · simp [normalize, hsrc, hraster, hc, hw, hh, hnz, hvalid]
    · simp only [roundRatio]
      push_cast
      rfl

theorem normalize_aspect_ratio_witness :
    ∃ t, normalize ⟨"webp", ["png", "jpeg"]⟩
        ⟨.localSrc ⟨"/assets/hero.png", 1600, 900, "png"⟩,
         some 800, none, none, none, []⟩ = .ok t ∧
      t.width = 800 ∧ t.height = 450 := by
  obtain ⟨t, hok, hw, hh⟩ :=
    (normalize_aspect_ratio ⟨"webp", ["png", "jpeg"]⟩
      ⟨.localSrc ⟨"/assets/hero.png", 1600, 900, "png"⟩, some 800, none, none, none, []⟩
      ⟨"/assets/hero.png", 1600, 900, "png"⟩ rfl (by decide)
      (by decide) (by decide) (by decide)).1 800 rfl rfl (by decide)
  refine ⟨t, hok, hw, ?_⟩
  rw [hh]
  norm_num
  rfl

/-- C3: `register` is idempotent and order-independent over the extra
options bag: for every resolved transform, calling `register` twice — the
second time with the extra map's keys enumerated in a different order —
returns the same `outputPath` both times, and the second call creates no
new registry entry (the state is unchanged and the created flag is
`false`). -/
theorem register_idempotent (reg : Registry) (r1 r2 : ResolvedTransform)
    (hw : r2.width = r1.width) (hh : r2.height = r1.height)
    (hf : r2.format = r1.format) (hq : r2.quality = r1.quality)
    (hs : r2.sourceRef = r1.sourceRef) (hx : List.Perm r2.extra r1.extra) :
    ((reg.register r1).2.1.register r2).1 = (reg.register r1).1 ∧
    ((reg.register r1).2.1.register r2).2.1 = (reg.register r1).2.1 ∧
    ((reg.register r1).2.1.register r2).2.2 = false := by
  have hfp : fingerprint r2 = fingerprint r1 := by
    simp [fingerprint, hw, hh, hf, hq, hs, Multiset.coe_eq_coe, hx]
  obtain ⟨e, hlk, hpath, _⟩ := register_lookup_self reg r1
  have hstep : (reg.register r1).2.1.register r2
      = (e.outputPath, (reg.register r1).2.1, false) :=
    register_of_found _ r2 e (by rw [hfp]; exact hlk)
  rw [hstep, hpath]
  exact ⟨rfl, rfl, rfl⟩

theorem register_idempotent_witness :
    ((Registry.empty.register
        ⟨800, 450, "webp", none, .remote "https://example.com/a.png",
          [("fit", "cover"), ("position", "top")]⟩).2.1.register
        ⟨800, 450, "webp", none, .remote "https://example.com/a.png",
          [("position", "top"), ("fit", "cover")]⟩).1
      = (Registry.empty.register
        ⟨800, 450, "webp", none, .remote "https://example.com/a.png",
          [("fit", "cover"), ("position", "top")]⟩).1 ∧
    ((Registry.empty.register
        ⟨800, 450, "webp", none, .remote "https://example.com/a.png",
          [("fit", "cover"), ("position", "top")]⟩).2.1.register
        ⟨800, 450, "webp", none, .remote "https://example.com/a.png",
          [("position", "top"), ("fit", "cover")]⟩).2.2 = false := by
  obtain ⟨h1, _, h3⟩ := register_idempotent Registry.empty
    ⟨800, 450, "webp", none, .remote "https://example.com/a.png",
      [("fit", "cover"), ("position", "top")]⟩
    ⟨800, 450, "webp", none, .remote "https://example.com/a.png",
      [("position", "top"), ("fit", "cover")]⟩
    rfl rfl rfl rfl rfl (by decide)
  exact ⟨h1, h3⟩

/-- C4: Under concurrent `register` calls for the same fingerprint from N
parallel callers within one build — which the spec requires to serialize
around the check-and-insert, so every concurrent execution is equivalent to
some sequential order, modelled here as an arbitrary batch — exactly one
registration creates a new entry, all N callers observe the same
`outputPath`, and backend transform work (the created flag) is issued
exactly once, hence at most once, for that fingerprint. -/
theorem register_concurrent_once (reg : Registry) (rs : List ResolvedTransform)
    (fp : Fingerprint) (hall : ∀ r ∈ rs, fingerprint r = fp)
    (hnone : reg.lookup fp = none) (hne : rs ≠ []) :
    ((registerAll reg rs).1.filter (fun o => o.2)).length = 1 ∧
    (∀ o ∈ (registerAll reg rs).1, o.1 = assignPath reg.counter) := by
  cases rs with
  | nil => exact absurd rfl hne
  | cons r rest =>
    have hfp : fingerprint r = fp := hall r (List.mem_cons_self r rest)
    have hr : reg.register r =
        (assignPath reg.counter,
         ⟨⟨fingerprint r, assignPath reg.counter, r⟩ :: reg.entries, reg.counter + 1⟩,
         true) :=
      register_of_none reg r (by rw [hfp]; exact hnone)
    have hlk1 : Registry.lookup
        ⟨⟨fingerprint r, assignPath reg.counter, r⟩ :: reg.entries, reg.counter + 1⟩ fp
        = some ⟨fingerprint r, assignPath reg.counter, r⟩ := by
      rw [hfp]
      exact lookup_cons_self reg fp (assignPath reg.counter) r
    have hrest := registerAll_of_found fp ⟨fingerprint r, assignPath reg.counter, r⟩
      rest _ (fun x hx => hall x (List.mem_cons_of_mem r hx)) hlk1
    constructor
    · simp only [registerAll, hr, hrest]
      have : ∀ (l : List ResolvedTransform),
          ((l.map (fun _ => (assignPath reg.counter, false))).filter
            (fun o : String × Bool => o.2)) = [] := by
        intro l
        induction l with
        | nil => rfl
        | cons x xs ih => simp [ih]
      simp [this rest]
    · intro o ho
      simp only [registerAll, hr, hrest] at ho
      rcases List.mem_cons.mp ho with heq | hmem
      · rw [heq]
      · obtain ⟨x, _, hxeq⟩ := List.mem_map.mp hmem
        rw [← hxeq]

theorem register_concurrent_once_witness :
    ((registerAll Registry.empty
        [⟨800, 450, "avif", none, .localSrc ⟨"/a.png", 1600, 900, "png"⟩, []⟩,
         ⟨800, 450, "avif", none, .localSrc ⟨"/a.png", 1600, 900, "png"⟩, []⟩,
         ⟨800, 450, "avif", none, .localSrc ⟨"/a.png", 1600, 900, "png"⟩, []⟩]).1.filter
      (fun o => o.2)).length = 1 ∧
    (∀ o ∈ (registerAll Registry.empty
        [⟨800, 450, "avif", none, .localSrc ⟨"/a.png", 1600, 900, "png"⟩, []⟩,
         ⟨800, 450, "avif", none, .localSrc ⟨"/a.png", 1600, 900, "png"⟩, []⟩,
         ⟨800, 450, "avif", none, .localSrc ⟨"/a.png", 1600, 900, "png"⟩, []⟩]).1,
      o.1 = assignPath Registry.empty.counter) :=
  register_concurrent_once Registry.empty _
    (fingerprint ⟨800, 450, "avif", none, .localSrc ⟨"/a.png", 1600, 900, "png"⟩, []⟩)
    (by decide) (by decide) (by decide)

/-- C5: For every resolved transform whose output format is not in the
backend's supported output format set, `negotiate` fails with
`UnsupportedOutputFormat` — it returns the error, never an `ok` result with
a substituted fallback format. -/
theorem negotiate_unsupported_output_format (r : ResolvedTransform)
    (b : BackendCapabilities) (h : r.format ∉ b.supportedOutputFormats) :
    negotiate r b = .error .unsupportedOutputFormat := by
  simp [negotiate, h]

theorem negotiate_unsupported_output_format_witness :
    negotiate ⟨800, 450, "heif", none, .remote "https://example.com/a.png", []⟩
      ⟨["png", "jpeg", "webp"], ["png", "jpeg", "webp", "avif"],
        fun _ => false, fun _ _ => true⟩
      = .error .unsupportedOutputFormat :=
  negotiate_unsupported_output_format _ _ (by decide)

/-- C7: When a quality value is set but the backend reports quality
unsupported for the resolved format, `negotiate` drops the quality value
(it becomes unset) and succeeds, leaving every other field of the resolved
transform (width, height, format, sourceRef, extra) unchanged. -/
theorem negotiate_drops_unsupported_quality (r : ResolvedTransform)
    (b : BackendCapabilities) (q : ImageQuality) (_hq : r.quality = some q)
    (hfmt : r.format ∈ b.supportedOutputFormats)
    (hunsup : b.qualityUnsupported r.format = true) :
    ∃ t, negotiate r b = .ok t ∧ t.quality = none ∧ t.width = r.width ∧
      t.height = r.height ∧ t.format = r.format ∧ t.sourceRef = r.sourceRef ∧
      t.extra = r.extra := by
  exact ⟨{ r with quality := none }, by simp [negotiate, hfmt, hunsup],
    rfl, rfl, rfl, rfl, rfl, rfl⟩

theorem negotiate_drops_unsupported_quality_witness :
    ∃ t, negotiate ⟨800, 450, "png", some (.value 80),
        .remote "https://example.com/a.png", [("fit", "cover")]⟩
      ⟨["png"], ["png"], fun _ => true, fun _ _ => false⟩ = .ok t ∧
      t.quality = none ∧ t.width = 800 ∧ t.height = 450 ∧ t.format = "png" ∧
      t.sourceRef = .remote "https://example.com/a.png" ∧
      t.extra = [("fit", "cover")] :=
  negotiate_drops_unsupported_quality
    ⟨800, 450, "png", some (.value 80), .remote "https://example.com/a.png",
      [("fit", "cover")]⟩
    ⟨["png"], ["png"], fun _ => true, fun _ _ => false⟩
    (.value 80) rfl (by decide) rfl

/-- C6: The registry maps fingerprints to output paths injectively and
immutably within a build: two registrations with the same fingerprint
resolve to the same `outputPath`; a committed entry is never overwritten;
distinct fingerprints never share an `outputPath`; and two resolved
transforms differing in any single option (for example only in `quality`)
have distinct fingerprints, hence never share an `outputPath`. -/
theorem registry_injective_immutable (reg : Registry) (hreach : Reachable reg)
    (r1 r2 : ResolvedTransform) :
    (fingerprint r1 = fingerprint r2 →
      ((reg.register r1).2.1.register r2).1 = (reg.register r1).1) ∧
    (∀ fp e, reg.lookup fp = some e →
      (((reg.register r1).2.1.register r2).2.1).lookup fp = some e) ∧
    (fingerprint r1 ≠ fingerprint r2 →
      ((reg.register r1).2.1.register r2).1 ≠ (reg.register r1).1) ∧
    ((r1.width ≠ r2.width ∨ r1.height ≠ r2.height ∨ r1.format ≠ r2.format ∨
      r1.quality ≠ r2.quality ∨ r1.sourceRef ≠ r2.sourceRef) →
      fingerprint r1 ≠ fingerprint r2) := by
  obtain ⟨e1, hlk1, hpath1, hfp1⟩ := register_lookup_self reg r1
  have hwf1 : ((reg.register r1).2.1).WF :=
    wf_register reg r1 (reachable_wf reg hreach)
  have he1mem : e1 ∈ ((reg.register r1).2.1).entries :=
    List.mem_of_find?_eq_some hlk1
  refine ⟨?_, ?_, ?_, ?_⟩
  · intro hfp
    have hstep := register_of_found _ r2 e1 (by rw [← hfp]; exact hlk1)
    rw [hstep, hpath1]
  · intro fp e he
    exact lookup_register_persist _ r2 fp e (lookup_register_persist reg r1 fp e he)
  · intro hfp
    cases hlk2 : ((reg.register r1).2.1).lookup (fingerprint r2) with
    | some e2 =>
      rw [register_of_found _ r2 e2 hlk2]
      have he2mem : e2 ∈ ((reg.register r1).2.1).entries :=
        List.mem_of_find?_eq_some hlk2
      have hfp2 : e2.fingerprint = fingerprint r2 := by
        simpa using List.find?_some hlk2
      have hne : e2.fingerprint ≠ e1.fingerprint := by
        rw [hfp1, hfp2]
        intro hcontra
        exact hfp hcontra.symm
      rw [← hpath1]
      exact wf_path_ne _ hwf1 e2 e1 he2mem he1mem hne
    | none =>
      rw [register_of_none _ r2 hlk2]
      obtain ⟨i, hi, hpi⟩ := hwf1.2.1 e1 he1mem
      rw [← hpath1, hpi]
      intro hcontra
      have : ((reg.register r1).2.1).counter = i :=
        natRepr_injective hcontra
      omega
  · intro hdiff hfp
    simp only [fingerprint, Fingerprint.mk.injEq] at hfp
    obtain ⟨hs, hw, hh, hf, hq, _⟩ := hfp
    rcases hdiff with h | h | h | h | h <;> exact h (by assumption)

theorem registry_injective_immutable_witness :
    ((Registry.empty.register
        ⟨800, 450, "webp", some (.value 80),
          .localSrc ⟨"/a.png", 1600, 900, "png"⟩, []⟩).2.1.register
        ⟨800, 450, "webp", some (.value 90),
          .localSrc ⟨"/a.png", 1600, 900, "png"⟩, []⟩).1
      ≠ (Registry.empty.register
        ⟨800, 450, "webp", some (.value 80),
          .localSrc ⟨"/a.png", 1600, 900, "png"⟩, []⟩).1 := by
  have h := registry_injective_immutable Registry.empty Reachable.init
    ⟨800, 450, "webp", some (.value 80), .localSrc ⟨"/a.png", 1600, 900, "png"⟩, []⟩
    ⟨800, 450, "webp", some (.value 90), .localSrc ⟨"/a.png", 1600, 900, "png"⟩, []⟩
  exact h.2.2.1 (h.2.2.2 (by decide))

/-- C8: At the public component interface, `width` and `height` may each be
supplied either as a number or as a numeric string (the `` `${number}` ``
form), and for every numeric value `n`, supplying the string form yields
the same resolved dimensions as supplying `n` itself: normalization of the
lowered request gives identical results. -/
theorem props_string_dimension_same (cfg : NormConfig) (src : ImageSource)
    (q : Option ImageQuality) (f : Option OutputFormat)
    (ex : List (String × String)) (n : Nat) (other : Option PropDim) :
    (normalize cfg (propsToTransform src ⟨some (.str (natRepr n)), other⟩ q f ex) =
      normalize cfg (propsToTransform src ⟨some (.num n), other⟩ q f ex)) ∧
    (normalize cfg (propsToTransform src ⟨other, some (.str (natRepr n))⟩ q f ex) =
      normalize cfg (propsToTransform src ⟨other, some (.num n)⟩ q f ex)) := by
  have hc : coerceDim (.str (natRepr n)) = coerceDim (.num n) := by
    simp [coerceDim, parseDigits_natRepr]
  constructor <;> simp [propsToTransform, hc]

/-- C9: Every field of the process-wide `astroAsset` registry handle
(`imageService`, `addStaticImage`, `staticImages`) is optional and may be
undefined before build initialization: each field is an `Option`, and the
handle admits the fully-uninitialized state, so every consumer at the
public interface must handle the absent (`none`) case. -/
theorem astroAsset_fields_optional :
    ∃ a : AstroAsset, a.imageService = none ∧ a.addStaticImage = none ∧
      a.staticImages = none :=
  ⟨⟨none, none, none⟩, rfl, rfl, rfl⟩

/-- C10: Every local image metadata value carries, in addition to width,
height and format, a `src` string identifying the resolved source
reference, so that source identity is always available alongside intrinsic
dimensions: two different files with identical transform options are
distinguished by the fingerprint through their `src`. -/
theorem metadata_src_distinguishes (m1 m2 : ImageMetadata)
    (hsrc : m1.src ≠ m2.src) (w h : Nat) (f : OutputFormat)
    (q : Option ImageQuality) (ex : List (String × String)) :
    m1 = ⟨m1.src, m1.width, m1.height, m1.format⟩ ∧
    fingerprint ⟨w, h, f, q, .localSrc m1, ex⟩
      ≠ fingerprint ⟨w, h, f, q, .localSrc m2, ex⟩ := by
  refine ⟨rfl, ?_⟩
  intro hfp
  simp only [fingerprint, Fingerprint.mk.injEq, ImageSource.localSrc.injEq] at hfp
  exact hsrc (congrArg ImageMetadata.src hfp.1)

theorem metadata_src_distinguishes_witness :
    (⟨"/a.png", 1600, 900, "png"⟩ : ImageMetadata)
        = ⟨"/a.png", 1600, 900, "png"⟩ ∧
    fingerprint ⟨800, 450, "webp", none,
        .localSrc ⟨"/a.png", 1600, 900, "png"⟩, []⟩
      ≠ fingerprint ⟨800, 450, "webp", none,
        .localSrc ⟨"/b.png", 1600, 900, "png"⟩, []⟩ :=
  metadata_src_distinguishes ⟨"/a.png", 1600, 900, "png"⟩
    ⟨"/b.png", 1600, 900, "png"⟩ (by decide) 800 450 "webp" none []

end AstroAssets
